import Mathlib

/-!
# Microsoft OAuth2 provider: `FetchAuthUser`

A shallow embedding of `tools/auth/microsoft.go`.

* The decoded payload is a tree of dynamically typed JSON values, the shape that
  `encoding/json` produces when it decodes into `map[string]any`.
* `jsonpath.Get` is modelled for the plain selector chains used by the five
  queries of `FetchAuthUser` (`.name` and `[n]` steps).
* The collaborators that live outside the file (the authenticated HTTP fetch of
  the base provider, `json.Unmarshal`, `mail.ParseAddress`) are fields of an
  environment `Env`; every general theorem holds for all environments.
* A failed type assertion `x.(string)` and a nil pointer dereference are
  run-time panics in Go; they are explicit results here.
-/

namespace auth

/-- Go `error` values, identified by their message. -/
structure GoError where
  msg : String
deriving DecidableEq, Repr

/-- A JSON value as decoded by `encoding/json` into `any`: `nil`, `bool`,
`float64` (the numeric payload is never inspected by the extraction, an integer
stands for it), `string`, `[]any` and `map[string]any` (an association list,
read by first match). -/
inductive JSONValue where
  | null
  | bool (b : Bool)
  | number (n : Int)
  | string (s : String)
  | array (items : List JSONValue)
  | object (fields : List (String × JSONValue))

/-- The Go type `map[string]any`. -/
abbrev JSONMap := List (String × JSONValue)

/-- The fields of `oauth2.Token` that the provider reads. -/
structure Token where
  AccessToken : String
  TokenType : String
  RefreshToken : String
deriving DecidableEq, Repr

/-- Modelled from the spec: the declaration of `AuthUser` is outside the file;
these are the fields listed by the data model, which are also exactly the fields
the composite literal of `FetchAuthUser` sets. -/
structure AuthUser where
  Id : String
  Name : String
  Email : String
  RawUser : JSONMap
  AccessToken : String
  RefreshToken : String

/-- The `net/mail` type `Address`. -/
structure MailAddress where
  Name : String
  Address : String
deriving DecidableEq, Repr

/-- The configuration held by the embedded base provider. -/
structure baseProvider where
  scopes : List String
  authUrl : String
  tokenUrl : String
  userApiUrl : String
deriving DecidableEq, Repr

/-- The provider type: it only embeds the base provider. -/
structure Microsoft where
  base : baseProvider
deriving DecidableEq, Repr

/-- The type `oauth2.Endpoint`. -/
structure Endpoint where
  AuthURL : String
  TokenURL : String
deriving DecidableEq, Repr

/-- The function `microsoft.AzureADEndpoint` of `golang.org/x/oauth2/microsoft`:
the empty tenant stands for `common`. -/
def AzureADEndpoint (tenant : String) : Endpoint :=
  let tenant := if tenant = "" then "common" else tenant
  { AuthURL := "https://login.microsoftonline.com/" ++ tenant ++ "/oauth2/v2.0/authorize"
    TokenURL := "https://login.microsoftonline.com/" ++ tenant ++ "/oauth2/v2.0/token" }

/-- NewMicrosoftProvider creates new Microsoft AD provider instance with some defaults. -/
def NewMicrosoftProvider : Microsoft :=
  let endpoints := AzureADEndpoint ""
  { base :=
      { scopes := ["User.Read"]
        authUrl := endpoints.AuthURL
        tokenUrl := endpoints.TokenURL
        userApiUrl := "https://graph.microsoft.com/beta/me/profile" } }

/-- The collaborators of `FetchAuthUser` that are not part of the file.

* `FetchRawUserData`: the authenticated GET of the base provider, `([]byte, error)`.
* `Unmarshal`: `json.Unmarshal(data, &rawUser)` into a fresh `map[string]any`;
  `.ok m` is a nil error with `m` the map afterwards.
* `ParseAddress`: `mail.ParseAddress`, `(*Address, error)`; on an error the
  returned pointer is nil. -/
structure Env where
  FetchRawUserData : baseProvider → Token → Except GoError (List UInt8)
  Unmarshal : List UInt8 → Except GoError JSONMap
  ParseAddress : String → Except GoError MailAddress

/-- A run-time panic of the Go program. -/
inductive Panic where
  /-- A failed single-value type assertion `x.(string)`; `v` is the dynamic value. -/
  | interfaceConversion (v : JSONValue)
  /-- A field read through a nil pointer. -/
  | nilPointerDereference

end auth

namespace jsonpath

open auth

/-- One step of a compiled path: `.name` (also `['name']`) or `[n]`. -/
inductive Selector where
  | key (name : String)
  | index (i : Nat)
deriving DecidableEq, Repr

/-- The function `selectValue` of the path library, for a constant key.

On a slice the key is read as an integer and must be within bounds (none of the
identifiers of the queries below is a numeric literal, so a name is an invalid
slice key). On a map the key is read as a string — a numeric key is printed, so
`[0]` reads the entry `"0"` — and must be present. Every other value is an
unsupported type. -/
def selectValue (sel : Selector) (v : JSONValue) : Except GoError JSONValue :=
  match v with
  | .array o =>
    match sel with
    | .index i =>
      match o.get? i with
      | some e => .ok e
      | none => .error ⟨"index out of bounds"⟩
    | .key _ => .error ⟨"could not select value, invalid key"⟩
  | .object o =>
    let k := match sel with
      | .key name => name
      | .index i => toString i
    match o.lookup k with
    | some r => .ok r
    | none => .error ⟨"unknown key " ++ k⟩
  | _ => .error ⟨"unsupported value type for select"⟩

/-- Evaluation of a plain path: the selectors are applied in order and the
first error ends the evaluation. -/
def evaluate : List Selector → JSONValue → Except GoError JSONValue
  | [], v => .ok v
  | sel :: rest, v =>
    match selectValue sel v with
    | .ok e => evaluate rest e
    | .error err => .error err

/-- The function `jsonpath.Get`, on a compiled path. -/
def Get (path : List Selector) (value : JSONValue) : Except GoError JSONValue :=
  evaluate path value

end jsonpath

namespace auth

open jsonpath (Selector)

/-- The compiled query `$.account[0].id`. -/
def idQuery : List Selector := [.key "account", .index 0, .key "id"]

/-- The compiled query `$.emails[0].address`. -/
def emailQuery : List Selector := [.key "emails", .index 0, .key "address"]

/-- The compiled query `$.account[0].userPrincipalName`. -/
def principalQuery : List Selector := [.key "account", .index 0, .key "userPrincipalName"]

/-- The compiled query `$.names[0].first`. -/
def firstQuery : List Selector := [.key "names", .index 0, .key "first"]

/-- The compiled query `$.names[0].last`. -/
def lastQuery : List Selector := [.key "names", .index 0, .key "last"]

/-- The type assertion `x.(string)`: it panics unless the dynamic type is `string`. -/
def assertString (x : JSONValue) : Except Panic String :=
  match x with
  | .string s => .ok s
  | v => .error (.interfaceConversion v)

/-- The statement pattern `x, err := jsonpath.Get(q, rawUser); if err != nil { x = "" }`. -/
def getOrEmpty (path : List Selector) (rawUser : JSONMap) : JSONValue :=
  match jsonpath.Get path (.object rawUser) with
  | .ok v => v
  | .error _ => .string ""

/-- The email block of `FetchAuthUser` (the statements between the assignment of
`extracted.Id` and the assignment of `extracted.Email`): the value of `email`
when the block is left. -/
def emailBlock (env : Env) (rawUser : JSONMap) : Except Panic JSONValue :=
  match jsonpath.Get emailQuery (.object rawUser) with
  | .ok email => .ok email
  | .error _ =>
    match jsonpath.Get principalQuery (.object rawUser) with
    | .error _ => .ok (.string "")
    | .ok email =>
      match assertString email with
      | .error pn => .error pn
      | .ok s =>
        -- addr, err = mail.ParseAddress(email.(string))
        let addr : Option MailAddress :=
          match env.ParseAddress s with
          | .ok a => some a
          | .error _ => none
        -- if err != nil { email = "" }
        let _email : JSONValue :=
          match env.ParseAddress s with
          | .ok _ => email
          | .error _ => .string ""
        -- email = addr.Address
        match addr with
        | none => .error .nilPointerDereference
        | some a => .ok (.string a.Address)

/-- FetchAuthUser returns an AuthUser instance based on the Microsoft user api.
The result is the returned pair `(*AuthUser, error)`, or the panic that ends the
call. -/
def FetchAuthUser (env : Env) (p : Microsoft) (token : Token) :
    Except Panic (Option AuthUser × Option GoError) :=
  match env.FetchRawUserData p.base token with
  | .error err => .ok (none, some err)
  | .ok data =>
    match env.Unmarshal data with
    | .error err => .ok (none, some err)
    | .ok rawUser =>
      match assertString (getOrEmpty idQuery rawUser) with
      | .error pn => .error pn
      | .ok extractedId =>
        match emailBlock env rawUser with
        | .error pn => .error pn
        | .ok email =>
          match assertString email with
          | .error pn => .error pn
          | .ok extractedEmail =>
            let first := getOrEmpty firstQuery rawUser
            let last := getOrEmpty lastQuery rawUser
            match assertString first with
            | .error pn => .error pn
            | .ok f =>
              match assertString last with
              | .error pn => .error pn
              | .ok l =>
                let user : AuthUser :=
                  { Id := extractedId
                    Name := f ++ " " ++ l
                    Email := extractedEmail
                    RawUser := rawUser
                    AccessToken := token.AccessToken
                    RefreshToken := token.RefreshToken }
                .ok (some user, none)

/-! ## Sample environments

Concrete collaborators for evaluating `FetchAuthUser` on explicit inputs. The
general theorems never use them. -/

/-- The characters of an RFC 5322 atom (`atext`), ASCII part: letters, digits
and the printable specials of the grammar, given by code point. -/
def isAtext (c : Char) : Bool :=
  c.isAlphanum ||
    [33, 35, 36, 37, 38, 39, 42, 43, 45, 47, 61, 63, 94, 95, 96, 123, 124, 125, 126].contains c.toNat

/-- Scanner for a dot-atom; `prev` tells whether the previous character was an
atom character (so that a leading, trailing or doubled dot is refused). -/
def dotAtomAux : List Char → Bool → Bool
  | [], prev => prev
  | c :: cs, prev =>
    if c = '.' then prev && dotAtomAux cs false else isAtext c && dotAtomAux cs true

/-- A non-empty dot-atom. -/
def isDotAtom (cs : List Char) : Bool := dotAtomAux cs false

/-- The bare `addr-spec` fragment of `mail.ParseAddress`: `local@domain` with
both sides ASCII dot-atoms is accepted, with an empty display name and the input
as address. Forms that `net/mail` also accepts (display names, angle brackets,
comments, quoted local parts, domain literals, surrounding blanks) lie outside
the fragment; the evaluations below use it only on one bare address and on
strings without `@`, which no mailbox grammar admits. -/
def parseAddrSpec (s : String) : Except GoError MailAddress :=
  match s.toList.span (fun c => c != '@') with
  | (loc, '@' :: dom) =>
    if isDotAtom loc && isDotAtom dom then .ok { Name := "", Address := s }
    else .error ⟨"mail: invalid address"⟩
  | _ => .error ⟨"mail: missing \x27@\x27 or angle-addr"⟩

/-- The bytes of an ASCII text. -/
def bytesOf (s : String) : List UInt8 := s.toList.map (fun c => c.toNat.toUInt8)

/-- An environment whose user-info endpoint answers `payload`, which the JSON
decoder turns into `decoded`; mailbox addresses are parsed by `parseAddrSpec`. -/
def stubEnv (payload : List UInt8) (decoded : Except GoError JSONMap) : Env :=
  { FetchRawUserData := fun _ _ => .ok payload
    Unmarshal := fun data =>
      if data = payload then decoded else .error ⟨"unexpected end of JSON input"⟩
    ParseAddress := parseAddrSpec }

/-- An environment whose user-info request fails with `err`. -/
def failingEnv (err : GoError) : Env :=
  { FetchRawUserData := fun _ _ => .error err
    Unmarshal := fun _ => .ok []
    ParseAddress := parseAddrSpec }

/-- A sample token. -/
def sampleToken : Token :=
  { AccessToken := "at-1", TokenType := "Bearer", RefreshToken := "rt-1" }

/-- The query reports an error (`err != nil`): the path is not found. -/
def notFound (path : List Selector) (rawUser : JSONMap) : Bool :=
  match jsonpath.Get path (.object rawUser) with
  | .ok _ => false
  | .error _ => true

/-- The query is not found, or the value it finds is a string. -/
def absentOrString (path : List Selector) (rawUser : JSONMap) : Bool :=
  match jsonpath.Get path (.object rawUser) with
  | .ok (.string _) => true
  | .ok _ => false
  | .error _ => true

/-- The email queries are well-shaped: the primary path holds a string, or it
is not found and the principal name is not found or is a string that the
mailbox parser accepts. -/
def emailWellShaped (env : Env) (rawUser : JSONMap) : Bool :=
  match jsonpath.Get emailQuery (.object rawUser) with
  | .ok (.string _) => true
  | .ok _ => false
  | .error _ =>
    match jsonpath.Get principalQuery (.object rawUser) with
    | .error _ => true
    | .ok (.string s) =>
      match env.ParseAddress s with
      | .ok _ => true
      | .error _ => false
    | .ok _ => false

/-! ## Sample documents -/

/-- The payload text `{"account":[{"id":123}]}`: a numeric id. -/
def numericIdPayload : List UInt8 := bytesOf "\x7b\"account\":[\x7b\"id\":123\x7d]\x7d"

/-- The document decoded from `numericIdPayload`. -/
def numericIdDoc : JSONMap :=
  [("account", .array [.object [("id", .number 123)]])]

/-- The payload text `{"account":[{"userPrincipalName":"not-an-email"}]}`. -/
def invalidPrincipalPayload : List UInt8 :=
  bytesOf "\x7b\"account\":[\x7b\"userPrincipalName\":\"not-an-email\"\x7d]\x7d"

/-- The document decoded from `invalidPrincipalPayload`. -/
def invalidPrincipalDoc : JSONMap :=
  [("account", .array [.object [("userPrincipalName", .string "not-an-email")]])]

/-- The payload text `{"emails":[{"address":"not-an-email"}]}`. -/
def unvalidatedPrimaryPayload : List UInt8 :=
  bytesOf "\x7b\"emails\":[\x7b\"address\":\"not-an-email\"\x7d]\x7d"

/-- The document decoded from `unvalidatedPrimaryPayload`. -/
def unvalidatedPrimaryDoc : JSONMap :=
  [("emails", .array [.object [("address", .string "not-an-email")]])]

/-- The payload text
`{"account":[{"id":"42","userPrincipalName":"a@b.com"}],"emails":[{"address":"p@x.org"}],"names":[{"first":"Ada","last":"Lovelace"}]}`. -/
def fullPayload : List UInt8 :=
  bytesOf ("\x7b\"account\":[\x7b\"id\":\"42\",\"userPrincipalName\":\"a@b.com\"\x7d]," ++
    "\"emails\":[\x7b\"address\":\"p@x.org\"\x7d]," ++
    "\"names\":[\x7b\"first\":\"Ada\",\"last\":\"Lovelace\"\x7d]\x7d")

/-- The document decoded from `fullPayload`: every queried path holds a string. -/
def fullDoc : JSONMap :=
  [("account", .array [.object [("id", .string "42"), ("userPrincipalName", .string "a@b.com")]]),
   ("emails", .array [.object [("address", .string "p@x.org")]]),
   ("names", .array [.object [("first", .string "Ada"), ("last", .string "Lovelace")]])]

/-- The payload text
`{"account":[{"id":"123","userPrincipalName":"a@b.com"}],"names":[{"first":"A","last":"B"}]}`. -/
def principalOnlyPayload : List UInt8 :=
  bytesOf ("\x7b\"account\":[\x7b\"id\":\"123\",\"userPrincipalName\":\"a@b.com\"\x7d]," ++
    "\"names\":[\x7b\"first\":\"A\",\"last\":\"B\"\x7d]\x7d")

/-- The document decoded from `principalOnlyPayload`: no `emails` field. -/
def principalOnlyDoc : JSONMap :=
  [("account", .array [.object [("id", .string "123"), ("userPrincipalName", .string "a@b.com")]]),
   ("names", .array [.object [("first", .string "A"), ("last", .string "B")]])]

/-- The payload text `{"names":[{"first":"","last":"Lovelace"}]}`. -/
def emptyFirstPayload : List UInt8 :=
  bytesOf "\x7b\"names\":[\x7b\"first\":\"\",\"last\":\"Lovelace\"\x7d]\x7d"

/-- The document decoded from `emptyFirstPayload`. -/
def emptyFirstDoc : JSONMap :=
  [("names", .array [.object [("first", .string ""), ("last", .string "Lovelace")]])]

/-- The payload text `{"names":[{"first":1}]}`: no id, a numeric first name. -/
def numericFirstPayload : List UInt8 := bytesOf "\x7b\"names\":[\x7b\"first\":1\x7d]\x7d"

/-- The document decoded from `numericFirstPayload`. -/
def numericFirstDoc : JSONMap :=
  [("names", .array [.object [("first", .number 1)]])]

/-! ## Sample calls -/

/-- The endpoint answers with an empty body, which is not a JSON document. -/
def emptyBodyEnv : Env := stubEnv [] (.error ⟨"unexpected end of JSON input"⟩)

/-- The endpoint answers `numericIdPayload`. -/
def numericIdEnv : Env := stubEnv numericIdPayload (.ok numericIdDoc)

/-- The endpoint answers `invalidPrincipalPayload`. -/
def invalidPrincipalEnv : Env := stubEnv invalidPrincipalPayload (.ok invalidPrincipalDoc)

/-- The endpoint answers `unvalidatedPrimaryPayload`. -/
def unvalidatedPrimaryEnv : Env := stubEnv unvalidatedPrimaryPayload (.ok unvalidatedPrimaryDoc)

/-- The endpoint answers `fullPayload`. -/
def fullEnv : Env := stubEnv fullPayload (.ok fullDoc)

/-- The endpoint answers `principalOnlyPayload`. -/
def principalOnlyEnv : Env := stubEnv principalOnlyPayload (.ok principalOnlyDoc)

/-- The endpoint answers `emptyFirstPayload`. -/
def emptyFirstEnv : Env := stubEnv emptyFirstPayload (.ok emptyFirstDoc)

/-- The endpoint answers `numericFirstPayload`. -/
def numericFirstEnv : Env := stubEnv numericFirstPayload (.ok numericFirstDoc)

/-- The user that `FetchAuthUser` builds from `fullDoc` for `sampleToken`. -/
def fullUser : AuthUser :=
  { Id := "42", Name := "Ada Lovelace", Email := "p@x.org", RawUser := fullDoc,
    AccessToken := "at-1", RefreshToken := "rt-1" }

/-- The user that `FetchAuthUser` builds from `principalOnlyDoc` for `sampleToken`. -/
def principalOnlyUser : AuthUser :=
  { Id := "123", Name := "A B", Email := "a@b.com", RawUser := principalOnlyDoc,
    AccessToken := "at-1", RefreshToken := "rt-1" }

/-- The payload text `{}`: the empty object. -/
def emptyObjectPayload : List UInt8 := bytesOf "\x7b\x7d"

/-- The document decoded from `emptyObjectPayload`: no key at all. -/
def emptyObjectDoc : JSONMap := []

/-- The endpoint answers `emptyObjectPayload`. -/
def emptyObjectEnv : Env := stubEnv emptyObjectPayload (.ok emptyObjectDoc)

/-- The payload text
`{"account":[{"userPrincipalName":"a@b.com"}],"emails":[{"address":""}]}`: an
empty primary address next to a valid principal name. -/
def emptyPrimaryPayload : List UInt8 :=
  bytesOf ("\x7b\"account\":[\x7b\"userPrincipalName\":\"a@b.com\"\x7d]," ++
    "\"emails\":[\x7b\"address\":\"\"\x7d]\x7d")

/-- The document decoded from `emptyPrimaryPayload`. -/
def emptyPrimaryDoc : JSONMap :=
  [("account", .array [.object [("userPrincipalName", .string "a@b.com")]]),
   ("emails", .array [.object [("address", .string "")]])]

/-- The endpoint answers `emptyPrimaryPayload`. -/
def emptyPrimaryEnv : Env := stubEnv emptyPrimaryPayload (.ok emptyPrimaryDoc)

/-! ## Step lemmas -/

theorem assertString_eq_ok {v : JSONValue} {s : String} :
    assertString v = .ok s ↔ v = .string s := by
  cases v <;> simp [assertString]

theorem getOrEmpty_found {path : List Selector} {rawUser : JSONMap} {v : JSONValue}
    (h : jsonpath.Get path (.object rawUser) = .ok v) : getOrEmpty path rawUser = v := by
  simp [getOrEmpty, h]

theorem getOrEmpty_notFound {path : List Selector} {rawUser : JSONMap}
    (h : notFound path rawUser = true) : getOrEmpty path rawUser = .string "" := by
  unfold notFound at h
  unfold getOrEmpty
  split <;> simp_all

theorem notFound_iff {path : List Selector} {rawUser : JSONMap} :
    notFound path rawUser = true ↔ ∃ e, jsonpath.Get path (.object rawUser) = .error e := by
  unfold notFound
  split <;> simp_all

/-- A query that is not found or holds a string passes the string assertion;
the asserted string is the value found, or the empty string. -/
theorem assertString_getOrEmpty {path : List Selector} {rawUser : JSONMap}
    (h : absentOrString path rawUser = true) :
    ∃ s, assertString (getOrEmpty path rawUser) = .ok s ∧
      (notFound path rawUser = true → s = "") ∧
      (∀ t, jsonpath.Get path (.object rawUser) = .ok (.string t) → s = t) := by
  unfold absentOrString at h
  unfold getOrEmpty notFound
  split at h
  · rename_i t ht
    exact ⟨t, by simp [ht, assertString], by simp [ht], by simp [ht]⟩
  · simp at h
  · rename_i e he
    exact ⟨"", by simp [he, assertString], by simp, by simp [he]⟩

/-- A query that finds a value other than a string fails the string assertion. -/
theorem assertString_getOrEmpty_error {path : List Selector} {rawUser : JSONMap}
    (h : absentOrString path rawUser = false) :
    ∃ v, assertString (getOrEmpty path rawUser) = .error (.interfaceConversion v) := by
  unfold absentOrString at h
  unfold getOrEmpty
  split at h
  · simp at h
  · rename_i v hns hv
    refine ⟨v, ?_⟩
    rw [hv]
    cases v <;> simp_all [assertString]
  · simp at h

theorem emailBlock_primary (env : Env) {rawUser : JSONMap} {v : JSONValue}
    (h : jsonpath.Get emailQuery (.object rawUser) = .ok v) :
    emailBlock env rawUser = .ok v := by
  simp [emailBlock, h]

theorem emailBlock_absent (env : Env) {rawUser : JSONMap}
    (h₁ : notFound emailQuery rawUser = true) (h₂ : notFound principalQuery rawUser = true) :
    emailBlock env rawUser = .ok (.string "") := by
  obtain ⟨e₁, h₁⟩ := notFound_iff.mp h₁
  obtain ⟨e₂, h₂⟩ := notFound_iff.mp h₂
  simp [emailBlock, h₁, h₂]

theorem emailBlock_accepted (env : Env) {rawUser : JSONMap} {s : String} {addr : MailAddress}
    (h₁ : notFound emailQuery rawUser = true)
    (h₂ : jsonpath.Get principalQuery (.object rawUser) = .ok (.string s))
    (h₃ : env.ParseAddress s = .ok addr) :
    emailBlock env rawUser = .ok (.string addr.Address) := by
  obtain ⟨e₁, h₁⟩ := notFound_iff.mp h₁
  simp [emailBlock, h₁, h₂, h₃, assertString]

/-- The rejected principal name: the assignment `email = ""` is followed by the
read of `addr.Address` through the nil pointer. -/
theorem emailBlock_rejected (env : Env) {rawUser : JSONMap} {s : String} {err : GoError}
    (h₁ : notFound emailQuery rawUser = true)
    (h₂ : jsonpath.Get principalQuery (.object rawUser) = .ok (.string s))
    (h₃ : env.ParseAddress s = .error err) :
    emailBlock env rawUser = .error .nilPointerDereference := by
  obtain ⟨e₁, h₁⟩ := notFound_iff.mp h₁
  simp [emailBlock, h₁, h₂, h₃, assertString]

/-- What the email block can have done when it is left normally. -/
theorem emailBlock_ok_cases {env : Env} {rawUser : JSONMap} {v : JSONValue}
    (h : emailBlock env rawUser = .ok v) :
    jsonpath.Get emailQuery (.object rawUser) = .ok v ∨
    (notFound emailQuery rawUser = true ∧ notFound principalQuery rawUser = true ∧
      v = .string "") ∨
    (notFound emailQuery rawUser = true ∧
      ∃ s addr, jsonpath.Get principalQuery (.object rawUser) = .ok (.string s) ∧
        env.ParseAddress s = .ok addr ∧ v = .string addr.Address) := by
  unfold emailBlock at h
  split at h
  · rename_i w hw
    cases h
    exact Or.inl hw
  · rename_i e₁ h₁
    have hn₁ : notFound emailQuery rawUser = true := notFound_iff.mpr ⟨e₁, h₁⟩
    split at h
    · rename_i e₂ h₂
      cases h
      exact Or.inr (Or.inl ⟨hn₁, notFound_iff.mpr ⟨e₂, h₂⟩, rfl⟩)
    · rename_i w h₂
      split at h
      · cases h
      · rename_i s hs
        rw [assertString_eq_ok] at hs
        subst hs
        cases hp : env.ParseAddress s with
        | error e => simp [hp] at h
        | ok addr =>
          simp [hp] at h
          exact Or.inr (Or.inr ⟨hn₁, s, addr, h₂, hp, h.symm⟩)

/-- Well-shaped email queries leave the email block normally, with a string. -/
theorem emailBlock_wellShaped {env : Env} {rawUser : JSONMap}
    (h : emailWellShaped env rawUser = true) :
    ∃ e, emailBlock env rawUser = .ok (.string e) := by
  unfold emailWellShaped at h
  split at h
  · rename_i t ht
    exact ⟨t, emailBlock_primary env ht⟩
  · simp at h
  · rename_i e₁ h₁
    have hn₁ : notFound emailQuery rawUser = true := notFound_iff.mpr ⟨e₁, h₁⟩
    split at h
    · rename_i e₂ h₂
      exact ⟨"", emailBlock_absent env hn₁ (notFound_iff.mpr ⟨e₂, h₂⟩)⟩
    · rename_i s h₂
      split at h
      · rename_i addr hp
        exact ⟨addr.Address, emailBlock_accepted env hn₁ h₂ hp⟩
      · simp at h
    · simp at h

/-- The shape of every call that returns a user. -/
theorem FetchAuthUser_returns_user {env : Env} {p : Microsoft} {token : Token}
    {u : AuthUser} {err : Option GoError}
    (h : FetchAuthUser env p token = .ok (some u, err)) :
    ∃ data email f l,
      env.FetchRawUserData p.base token = .ok data ∧
      env.Unmarshal data = .ok u.RawUser ∧
      assertString (getOrEmpty idQuery u.RawUser) = .ok u.Id ∧
      emailBlock env u.RawUser = .ok email ∧
      assertString email = .ok u.Email ∧
      assertString (getOrEmpty firstQuery u.RawUser) = .ok f ∧
      assertString (getOrEmpty lastQuery u.RawUser) = .ok l ∧
      u.Name = f ++ " " ++ l ∧
      u.AccessToken = token.AccessToken ∧
      u.RefreshToken = token.RefreshToken ∧
      err = none := by
  unfold FetchAuthUser at h
  split at h
  · cases h
  · rename_i data hdata
    split at h
    · cases h
    · rename_i rawUser hraw
      split at h
      · cases h
      · rename_i xid hid
        split at h
        · cases h
        · rename_i email hemail
          split at h
          · cases h
          · rename_i xemail hxemail
            simp only at h
            split at h
            · cases h
            · rename_i f hf
              split at h
              · cases h
              · rename_i l hl
                cases h
                exact ⟨data, email, f, l, hdata, hraw, hid, hemail, hxemail, hf, hl,
                  rfl, rfl, rfl, rfl⟩

/-- A call whose steps all pass returns the user built from their results. -/
theorem FetchAuthUser_of_steps {env : Env} {p : Microsoft} {token : Token}
    {data : List UInt8} {rawUser : JSONMap} {email : JSONValue} {i e f l : String}
    (hfetch : env.FetchRawUserData p.base token = .ok data)
    (hdec : env.Unmarshal data = .ok rawUser)
    (hid : assertString (getOrEmpty idQuery rawUser) = .ok i)
    (hblock : emailBlock env rawUser = .ok email)
    (hemail : assertString email = .ok e)
    (hfirst : assertString (getOrEmpty firstQuery rawUser) = .ok f)
    (hlast : assertString (getOrEmpty lastQuery rawUser) = .ok l) :
    FetchAuthUser env p token =
      .ok (some { Id := i, Name := f ++ " " ++ l, Email := e, RawUser := rawUser,
                  AccessToken := token.AccessToken, RefreshToken := token.RefreshToken },
        none) := by
  simp only [FetchAuthUser, hfetch, hdec, hid, hblock, hemail, hfirst, hlast]

/-- The document of a returned user is the decoded payload of the call. -/
theorem rawUser_of_returns {env : Env} {p : Microsoft} {token : Token}
    {data : List UInt8} {rawUser : JSONMap} {u : AuthUser} {err : Option GoError}
    (hfetch : env.FetchRawUserData p.base token = .ok data)
    (hdec : env.Unmarshal data = .ok rawUser)
    (h : FetchAuthUser env p token = .ok (some u, err)) : u.RawUser = rawUser := by
  obtain ⟨data', _, _, _, hf, hd, _⟩ := FetchAuthUser_returns_user h
  rw [hfetch] at hf
  cases hf
  rw [hdec] at hd
  cases hd
  rfl

/-- Well-shaped queries: the call returns a user and no error. -/
theorem FetchAuthUser_wellShaped {env : Env} {p : Microsoft} {token : Token}
    {data : List UInt8} {rawUser : JSONMap}
    (hfetch : env.FetchRawUserData p.base token = .ok data)
    (hdec : env.Unmarshal data = .ok rawUser)
    (hid : absentOrString idQuery rawUser = true)
    (hemail : emailWellShaped env rawUser = true)
    (hfirst : absentOrString firstQuery rawUser = true)
    (hlast : absentOrString lastQuery rawUser = true) :
    ∃ u, FetchAuthUser env p token = .ok (some u, none) := by
  obtain ⟨i, hi, _⟩ := assertString_getOrEmpty hid
  obtain ⟨f, hf, _⟩ := assertString_getOrEmpty hfirst
  obtain ⟨l, hl, _⟩ := assertString_getOrEmpty hlast
  obtain ⟨e, he⟩ := emailBlock_wellShaped hemail
  exact ⟨_, FetchAuthUser_of_steps hfetch hdec hi he (assertString_eq_ok.mpr rfl) hf hl⟩

theorem stubEnv_fetch (payload : List UInt8) (decoded : Except GoError JSONMap)
    (b : baseProvider) (token : Token) :
    (stubEnv payload decoded).FetchRawUserData b token = .ok payload := rfl

theorem stubEnv_unmarshal (payload : List UInt8) (decoded : Except GoError JSONMap) :
    (stubEnv payload decoded).Unmarshal payload = decoded := by
  simp [stubEnv]

/-- A call whose primary email path is not found and whose principal name is a
string that the mailbox parser rejects never returns. -/
theorem FetchAuthUser_rejected_principal {env : Env} {p : Microsoft} {token : Token}
    {data : List UInt8} {rawUser : JSONMap} {s : String} {perr : GoError}
    (hfetch : env.FetchRawUserData p.base token = .ok data)
    (hdec : env.Unmarshal data = .ok rawUser)
    (h₁ : notFound emailQuery rawUser = true)
    (h₂ : jsonpath.Get principalQuery (.object rawUser) = .ok (.string s))
    (h₃ : env.ParseAddress s = .error perr) :
    ∃ pn, FetchAuthUser env p token = .error pn := by
  have hb := emailBlock_rejected env h₁ h₂ h₃
  simp only [FetchAuthUser, hfetch, hdec, hb]
  split
  · exact ⟨_, rfl⟩
  · exact ⟨_, rfl⟩

/-! ## The claims -/

/-- C1: when the fetched payload is rejected by the JSON decoder, `FetchAuthUser`
returns a nil user together with the decoding error (a non-nil error); no user
is built. -/
theorem fetchAuthUser_malformed_payload (env : Env) (p : Microsoft) (token : Token)
    (data : List UInt8) (err : GoError)
    (hfetch : env.FetchRawUserData p.base token = .ok data)
    (hdec : env.Unmarshal data = .error err) :
    FetchAuthUser env p token = .ok (none, some err) := by
  simp only [FetchAuthUser, hfetch, hdec]

/-- C1, at the empty body: the decoder error comes back with a nil user. -/
theorem fetchAuthUser_malformed_payload_witness :
    emptyBodyEnv.Unmarshal [] = .error ⟨"unexpected end of JSON input"⟩ ∧
    FetchAuthUser emptyBodyEnv NewMicrosoftProvider sampleToken =
      .ok (none, some ⟨"unexpected end of JSON input"⟩) :=
  ⟨rfl, fetchAuthUser_malformed_payload emptyBodyEnv NewMicrosoftProvider sampleToken [] _
    rfl rfl⟩

/-- C2: when `FetchRawUserData` fails with `err`, `FetchAuthUser` returns a nil
user and that same error, whatever the decoder and the mailbox parser are: they
are not consulted. -/
theorem fetchAuthUser_fetch_error (env : Env) (p : Microsoft) (token : Token) (err : GoError)
    (hfetch : env.FetchRawUserData p.base token = .error err) :
    FetchAuthUser env p token = .ok (none, some err) ∧
    ∀ (unmarshal : List UInt8 → Except GoError JSONMap)
      (parseAddress : String → Except GoError MailAddress),
      FetchAuthUser ⟨env.FetchRawUserData, unmarshal, parseAddress⟩ p token =
        .ok (none, some err) := by
  constructor
  · simp only [FetchAuthUser, hfetch]
  · intro unmarshal parseAddress
    simp only [FetchAuthUser, hfetch]

/-- C2, at a refused connection: the fetch error is returned as it is. -/
theorem fetchAuthUser_fetch_error_witness :
    FetchAuthUser (failingEnv ⟨"connection refused"⟩) NewMicrosoftProvider sampleToken =
      .ok (none, some ⟨"connection refused"⟩) :=
  (fetchAuthUser_fetch_error (failingEnv ⟨"connection refused"⟩) NewMicrosoftProvider
    sampleToken ⟨"connection refused"⟩ rfl).1

/-- C3 as stated fails: the payload `{"account":[{"id":123}]}` decodes into a
mapping, and the call ends in the panic of `id.(string)` on the number; no user
and no error are returned. -/
theorem extraction_panics_on_numeric_id :
    numericIdEnv.FetchRawUserData NewMicrosoftProvider.base sampleToken = .ok numericIdPayload ∧
    numericIdEnv.Unmarshal numericIdPayload = .ok numericIdDoc ∧
    FetchAuthUser numericIdEnv NewMicrosoftProvider sampleToken =
      .error (.interfaceConversion (.number 123)) ∧
    ¬ ∃ r, FetchAuthUser numericIdEnv NewMicrosoftProvider sampleToken = .ok r := by
  have h : FetchAuthUser numericIdEnv NewMicrosoftProvider sampleToken =
      .error (.interfaceConversion (.number 123)) := by
    simp only [FetchAuthUser, numericIdEnv, stubEnv_fetch, stubEnv_unmarshal]
    rfl
  refine ⟨rfl, stubEnv_unmarshal _ _, h, ?_⟩
  rintro ⟨r, hr⟩
  rw [h] at hr
  cases hr

/-- C3, amended: when the payload decodes and every queried path is well-shaped
(the id, first-name and last-name paths not found or strings; the primary email
path a string, or not found with the principal name not found or a string the
mailbox parser accepts), `FetchAuthUser` returns a user and a nil error, and
the paths that are not found give empty strings. -/
theorem fetchAuthUser_well_shaped_succeeds (env : Env) (p : Microsoft) (token : Token)
    (data : List UInt8) (rawUser : JSONMap)
    (hfetch : env.FetchRawUserData p.base token = .ok data)
    (hdec : env.Unmarshal data = .ok rawUser)
    (hid : absentOrString idQuery rawUser = true)
    (hemail : emailWellShaped env rawUser = true)
    (hfirst : absentOrString firstQuery rawUser = true)
    (hlast : absentOrString lastQuery rawUser = true) :
    ∃ u, FetchAuthUser env p token = .ok (some u, none) ∧
      (notFound idQuery rawUser = true → u.Id = "") ∧
      (notFound emailQuery rawUser = true → notFound principalQuery rawUser = true →
        u.Email = "") ∧
      (notFound firstQuery rawUser = true → notFound lastQuery rawUser = true →
        u.Name = " ") := by
  obtain ⟨i, hi, hi0, _⟩ := assertString_getOrEmpty hid
  obtain ⟨f, hf, hf0, _⟩ := assertString_getOrEmpty hfirst
  obtain ⟨l, hl, hl0, _⟩ := assertString_getOrEmpty hlast
  obtain ⟨e, he⟩ := emailBlock_wellShaped hemail
  refine ⟨_, FetchAuthUser_of_steps hfetch hdec hi he (assertString_eq_ok.mpr rfl) hf hl,
    hi0, ?_, ?_⟩
  · intro h₁ h₂
    have h := emailBlock_absent env h₁ h₂
    rw [he] at h
    cases h
    rfl
  · intro h₁ h₂
    show f ++ " " ++ l = " "
    rw [hf0 h₁, hl0 h₂]
    rfl

/-- C3, amended, at `{"names":[{"first":"","last":"Lovelace"}]}`: the call
returns a user whose `Id` and `Email` are empty. -/
theorem fetchAuthUser_well_shaped_succeeds_witness :
    ∃ u, FetchAuthUser emptyFirstEnv NewMicrosoftProvider sampleToken = .ok (some u, none) ∧
      u.Id = "" ∧ u.Email = "" := by
  obtain ⟨u, hu, hid, hemail, _⟩ :=
    fetchAuthUser_well_shaped_succeeds emptyFirstEnv NewMicrosoftProvider sampleToken
      emptyFirstPayload emptyFirstDoc rfl (stubEnv_unmarshal _ _) rfl rfl rfl rfl
  exact ⟨u, hu, hid rfl, hemail rfl rfl⟩

/-- C4 fails on the code: for the payload
`{"account":[{"userPrincipalName":"not-an-email"}]}` the primary email path is
not found, the principal name is a string that the mailbox parser rejects, and
the call ends in a nil pointer dereference (the read of `addr.Address` after
`email = ""`) instead of returning a user with an empty `Email`. -/
theorem invalid_principal_name_panics :
    notFound emailQuery invalidPrincipalDoc = true ∧
    jsonpath.Get principalQuery (.object invalidPrincipalDoc) = .ok (.string "not-an-email") ∧
    invalidPrincipalEnv.ParseAddress "not-an-email" =
      .error ⟨"mail: missing \x27@\x27 or angle-addr"⟩ ∧
    FetchAuthUser invalidPrincipalEnv NewMicrosoftProvider sampleToken =
      .error .nilPointerDereference := by
  refine ⟨rfl, rfl, rfl, ?_⟩
  simp only [FetchAuthUser, invalidPrincipalEnv, stubEnv_fetch, stubEnv_unmarshal]
  rfl

theorem FetchAuthUser_fullEnv :
    FetchAuthUser fullEnv NewMicrosoftProvider sampleToken = .ok (some fullUser, none) := by
  simp only [FetchAuthUser, fullEnv, stubEnv_fetch, stubEnv_unmarshal]
  rfl

theorem FetchAuthUser_principalOnlyEnv :
    FetchAuthUser principalOnlyEnv NewMicrosoftProvider sampleToken =
      .ok (some principalOnlyUser, none) := by
  simp only [FetchAuthUser, principalOnlyEnv, stubEnv_fetch, stubEnv_unmarshal]
  rfl

/-- The email of a returned user is the string that leaves the email block. -/
theorem email_of_returns {env : Env} {p : Microsoft} {token : Token}
    {data : List UInt8} {rawUser : JSONMap} {u : AuthUser} {err : Option GoError}
    (hfetch : env.FetchRawUserData p.base token = .ok data)
    (hdec : env.Unmarshal data = .ok rawUser)
    (h : FetchAuthUser env p token = .ok (some u, err)) :
    emailBlock env rawUser = .ok (.string u.Email) := by
  have hraw := rawUser_of_returns hfetch hdec h
  obtain ⟨_, email, _, _, _, _, _, hb, he, _⟩ := FetchAuthUser_returns_user h
  rw [assertString_eq_ok] at he
  rw [← hraw, hb, he]

/-- C5: when `$.emails[0].address` holds the string `pv`, every returned user
has `Email = pv`, with no condition on `$.account[0].userPrincipalName` or on
the mailbox parser; and a user is returned as soon as the id and name paths are
not found or strings. -/
theorem email_primary_wins (env : Env) (p : Microsoft) (token : Token)
    (data : List UInt8) (rawUser : JSONMap) (pv : String)
    (hfetch : env.FetchRawUserData p.base token = .ok data)
    (hdec : env.Unmarshal data = .ok rawUser)
    (hprimary : jsonpath.Get emailQuery (.object rawUser) = .ok (.string pv)) :
    (∀ u err, FetchAuthUser env p token = .ok (some u, err) → u.Email = pv) ∧
    (absentOrString idQuery rawUser = true → absentOrString firstQuery rawUser = true →
      absentOrString lastQuery rawUser = true →
      ∃ u, FetchAuthUser env p token = .ok (some u, none) ∧ u.Email = pv) := by
  have hb := emailBlock_primary env hprimary
  constructor
  · intro u err h
    have h' := email_of_returns hfetch hdec h
    rw [hb] at h'
    cases h'
    rfl
  · intro hid hfirst hlast
    obtain ⟨i, hi, _⟩ := assertString_getOrEmpty hid
    obtain ⟨f, hf, _⟩ := assertString_getOrEmpty hfirst
    obtain ⟨l, hl, _⟩ := assertString_getOrEmpty hlast
    exact ⟨_, FetchAuthUser_of_steps hfetch hdec hi hb (assertString_eq_ok.mpr rfl) hf hl, rfl⟩

/-- C5, on a document that sets both `emails[0].address` (`p@x.org`) and the
principal name (`a@b.com`): the primary value is the email. -/
theorem email_primary_wins_witness :
    jsonpath.Get principalQuery (.object fullDoc) = .ok (.string "a@b.com") ∧
    ∃ u, FetchAuthUser fullEnv NewMicrosoftProvider sampleToken = .ok (some u, none) ∧
      u.Email = "p@x.org" :=
  ⟨rfl, (email_primary_wins fullEnv NewMicrosoftProvider sampleToken fullPayload fullDoc
    "p@x.org" rfl (stubEnv_unmarshal _ _) rfl).2 rfl rfl rfl⟩

/-- C6: when `$.emails[0].address` is not found and the principal name is a
string `s` that the mailbox parser accepts as `addr`, every returned user has
`Email = addr.Address`; and a user is returned as soon as the id and name paths
are not found or strings. -/
theorem email_falls_back_to_valid_principal (env : Env) (p : Microsoft) (token : Token)
    (data : List UInt8) (rawUser : JSONMap) (s : String) (addr : MailAddress)
    (hfetch : env.FetchRawUserData p.base token = .ok data)
    (hdec : env.Unmarshal data = .ok rawUser)
    (hprimary : notFound emailQuery rawUser = true)
    (hprincipal : jsonpath.Get principalQuery (.object rawUser) = .ok (.string s))
    (hparse : env.ParseAddress s = .ok addr) :
    (∀ u err, FetchAuthUser env p token = .ok (some u, err) → u.Email = addr.Address) ∧
    (absentOrString idQuery rawUser = true → absentOrString firstQuery rawUser = true →
      absentOrString lastQuery rawUser = true →
      ∃ u, FetchAuthUser env p token = .ok (some u, none) ∧ u.Email = addr.Address) := by
  have hb := emailBlock_accepted env hprimary hprincipal hparse
  constructor
  · intro u err h
    have h' := email_of_returns hfetch hdec h
    rw [hb] at h'
    exact (JSONValue.string.inj (Except.ok.inj h')).symm
  · intro hid hfirst hlast
    obtain ⟨i, hi, _⟩ := assertString_getOrEmpty hid
    obtain ⟨f, hf, _⟩ := assertString_getOrEmpty hfirst
    obtain ⟨l, hl, _⟩ := assertString_getOrEmpty hlast
    exact ⟨_, FetchAuthUser_of_steps hfetch hdec hi hb (assertString_eq_ok.mpr rfl) hf hl, rfl⟩

/-- C6, on a document without `emails` whose principal name is the bare address
`a@b.com`: the parser returns the field value as address, and it is the email. -/
theorem email_falls_back_to_valid_principal_witness :
    principalOnlyEnv.ParseAddress "a@b.com" = .ok ⟨"", "a@b.com"⟩ ∧
    ∃ u, FetchAuthUser principalOnlyEnv NewMicrosoftProvider sampleToken = .ok (some u, none) ∧
      u.Email = "a@b.com" :=
  ⟨rfl, (email_falls_back_to_valid_principal principalOnlyEnv NewMicrosoftProvider sampleToken
    principalOnlyPayload principalOnlyDoc "a@b.com" ⟨"", "a@b.com"⟩ rfl (stubEnv_unmarshal _ _)
    rfl rfl rfl).2 rfl rfl rfl⟩

/-- C7 as stated fails: for the payload `{"emails":[{"address":"not-an-email"}]}`
the call returns a user whose `Email` is the non-empty string `not-an-email`,
which the mailbox parser rejects: the value of the primary path is not
validated. -/
theorem unvalidated_primary_email :
    ∃ u, FetchAuthUser unvalidatedPrimaryEnv NewMicrosoftProvider sampleToken =
        .ok (some u, none) ∧
      u.Email = "not-an-email" ∧ u.Email ≠ "" ∧
      unvalidatedPrimaryEnv.ParseAddress u.Email =
        .error ⟨"mail: missing \x27@\x27 or angle-addr"⟩ := by
  refine ⟨{ Id := "", Name := " ", Email := "not-an-email", RawUser := unvalidatedPrimaryDoc,
            AccessToken := "at-1", RefreshToken := "rt-1" }, ?_, rfl, by decide, rfl⟩
  simp only [FetchAuthUser, unvalidatedPrimaryEnv, stubEnv_fetch, stubEnv_unmarshal]
  rfl

/-- C7, amended: a non-empty `Email` of a returned user is either the string
held at `$.emails[0].address`, taken as it is without validation, or — the
primary path being not found — the address component that the mailbox parser
returned on accepting the string at `$.account[0].userPrincipalName`. -/
theorem email_nonempty_origin (env : Env) (p : Microsoft) (token : Token)
    (data : List UInt8) (rawUser : JSONMap) (u : AuthUser) (err : Option GoError)
    (hfetch : env.FetchRawUserData p.base token = .ok data)
    (hdec : env.Unmarshal data = .ok rawUser)
    (hret : FetchAuthUser env p token = .ok (some u, err))
    (hne : u.Email ≠ "") :
    jsonpath.Get emailQuery (.object rawUser) = .ok (.string u.Email) ∨
    (notFound emailQuery rawUser = true ∧
      ∃ s addr, jsonpath.Get principalQuery (.object rawUser) = .ok (.string s) ∧
        env.ParseAddress s = .ok addr ∧ u.Email = addr.Address) := by
  have h := email_of_returns hfetch hdec hret
  rcases emailBlock_ok_cases h with h₁ | ⟨_, _, h₃⟩ | ⟨h₁, s, addr, h₂, h₃, h₄⟩
  · exact Or.inl h₁
  · exact absurd (JSONValue.string.inj h₃) hne
  · exact Or.inr ⟨h₁, s, addr, h₂, h₃, JSONValue.string.inj h₄⟩

/-- C7, amended, at the user returned for a document without `emails`: its
email `a@b.com` is the address the parser returned for the principal name. -/
theorem email_nonempty_origin_witness :
    principalOnlyUser.Email ≠ "" ∧
    (jsonpath.Get emailQuery (.object principalOnlyDoc) = .ok (.string "a@b.com") ∨
    (notFound emailQuery principalOnlyDoc = true ∧
      ∃ s addr, jsonpath.Get principalQuery (.object principalOnlyDoc) = .ok (.string s) ∧
        principalOnlyEnv.ParseAddress s = .ok addr ∧ "a@b.com" = addr.Address)) :=
  ⟨by decide, email_nonempty_origin principalOnlyEnv NewMicrosoftProvider sampleToken
    principalOnlyPayload principalOnlyDoc principalOnlyUser none rfl (stubEnv_unmarshal _ _)
    FetchAuthUser_principalOnlyEnv (by decide)⟩

/-- The name of a returned user is the join of the two asserted name strings. -/
theorem name_of_returns {env : Env} {p : Microsoft} {token : Token}
    {data : List UInt8} {rawUser : JSONMap} {u : AuthUser} {err : Option GoError}
    (hfetch : env.FetchRawUserData p.base token = .ok data)
    (hdec : env.Unmarshal data = .ok rawUser)
    (h : FetchAuthUser env p token = .ok (some u, err)) :
    ∃ f l, getOrEmpty firstQuery rawUser = .string f ∧
      getOrEmpty lastQuery rawUser = .string l ∧ u.Name = f ++ " " ++ l := by
  have hraw := rawUser_of_returns hfetch hdec h
  obtain ⟨_, _, f, l, _, _, _, _, _, hf, hl, hn, _⟩ := FetchAuthUser_returns_user h
  rw [assertString_eq_ok, hraw] at hf hl
  exact ⟨f, l, hf, hl, hn⟩

/-- The value asserted for a query that holds the string `t`, or that is not
found with `t` empty. -/
theorem getOrEmpty_resolved {path : List Selector} {rawUser : JSONMap} {t : String}
    (h : jsonpath.Get path (.object rawUser) = .ok (.string t) ∨
      (notFound path rawUser = true ∧ t = "")) :
    getOrEmpty path rawUser = .string t := by
  rcases h with h | ⟨h, rfl⟩
  · exact getOrEmpty_found h
  · exact getOrEmpty_notFound h

/-- C8: with `f` the string at `$.names[0].first` (the empty string when the
path is not found) and `l` the string at `$.names[0].last` (likewise), every
returned user has `Name = f ++ " " ++ l`; and a user is returned as soon as the
id path is not found or a string and the email queries are well-shaped. -/
theorem name_composition (env : Env) (p : Microsoft) (token : Token)
    (data : List UInt8) (rawUser : JSONMap) (f l : String)
    (hfetch : env.FetchRawUserData p.base token = .ok data)
    (hdec : env.Unmarshal data = .ok rawUser)
    (hf : jsonpath.Get firstQuery (.object rawUser) = .ok (.string f) ∨
      (notFound firstQuery rawUser = true ∧ f = ""))
    (hl : jsonpath.Get lastQuery (.object rawUser) = .ok (.string l) ∨
      (notFound lastQuery rawUser = true ∧ l = "")) :
    (∀ u err, FetchAuthUser env p token = .ok (some u, err) → u.Name = f ++ " " ++ l) ∧
    (absentOrString idQuery rawUser = true → emailWellShaped env rawUser = true →
      ∃ u, FetchAuthUser env p token = .ok (some u, none) ∧ u.Name = f ++ " " ++ l) := by
  have hf' := getOrEmpty_resolved hf
  have hl' := getOrEmpty_resolved hl
  constructor
  · intro u err h
    obtain ⟨f₀, l₀, h₁, h₂, hn⟩ := name_of_returns hfetch hdec h
    rw [hf'] at h₁
    rw [hl'] at h₂
    rw [hn, ← JSONValue.string.inj h₁, ← JSONValue.string.inj h₂]
  · intro hid hemail
    obtain ⟨i, hi, _⟩ := assertString_getOrEmpty hid
    obtain ⟨e, he⟩ := emailBlock_wellShaped hemail
    exact ⟨_, FetchAuthUser_of_steps hfetch hdec hi he (assertString_eq_ok.mpr rfl)
      (assertString_eq_ok.mpr hf') (assertString_eq_ok.mpr hl'), rfl⟩

/-- C8, at first `Ada`, last `Lovelace` (name `Ada Lovelace`) and at an empty
first with last `Lovelace` (name ` Lovelace`, the space kept). -/
theorem name_composition_witness :
    (∃ u, FetchAuthUser fullEnv NewMicrosoftProvider sampleToken = .ok (some u, none) ∧
      u.Name = "Ada Lovelace") ∧
    (∃ u, FetchAuthUser emptyFirstEnv NewMicrosoftProvider sampleToken = .ok (some u, none) ∧
      u.Name = " Lovelace") :=
  ⟨(name_composition fullEnv NewMicrosoftProvider sampleToken fullPayload fullDoc
      "Ada" "Lovelace" rfl (stubEnv_unmarshal _ _) (Or.inl rfl) (Or.inl rfl)).2 rfl rfl,
   (name_composition emptyFirstEnv NewMicrosoftProvider sampleToken emptyFirstPayload
      emptyFirstDoc "" "Lovelace" rfl (stubEnv_unmarshal _ _) (Or.inl rfl) (Or.inl rfl)).2
      rfl rfl⟩

/-- The id of a returned user is the string asserted for the id query. -/
theorem id_of_returns {env : Env} {p : Microsoft} {token : Token}
    {data : List UInt8} {rawUser : JSONMap} {u : AuthUser} {err : Option GoError}
    (hfetch : env.FetchRawUserData p.base token = .ok data)
    (hdec : env.Unmarshal data = .ok rawUser)
    (h : FetchAuthUser env p token = .ok (some u, err)) :
    getOrEmpty idQuery rawUser = .string u.Id := by
  have hraw := rawUser_of_returns hfetch hdec h
  obtain ⟨_, _, _, _, _, _, hi, _⟩ := FetchAuthUser_returns_user h
  rw [assertString_eq_ok, hraw] at hi
  exact hi

/-- No `account` key: the id query is not found. -/
theorem idQuery_notFound_no_account {rawUser : JSONMap}
    (h : rawUser.lookup "account" = none) : notFound idQuery rawUser = true := by
  simp [notFound, jsonpath.Get, idQuery, jsonpath.evaluate, jsonpath.selectValue, h]

/-- An empty `account` array: the id query is not found. -/
theorem idQuery_notFound_empty_account {rawUser : JSONMap}
    (h : rawUser.lookup "account" = some (.array [])) : notFound idQuery rawUser = true := by
  simp [notFound, jsonpath.Get, idQuery, jsonpath.evaluate, jsonpath.selectValue, h]

/-- No `id` field in the first element of `account`: the id query is not found. -/
theorem idQuery_notFound_no_id {rawUser : JSONMap} {o : JSONMap} {rest : List JSONValue}
    (h : rawUser.lookup "account" = some (.array (.object o :: rest)))
    (hid : o.lookup "id" = none) : notFound idQuery rawUser = true := by
  simp [notFound, jsonpath.Get, idQuery, jsonpath.evaluate, jsonpath.selectValue, h, hid]

/-- C9 as stated fails: for the payload `{"names":[{"first":1}]}` the id path is
not found (there is no `account` key), and the call does not succeed: it ends
in the panic of `first.(string)` on the number. -/
theorem id_not_found_need_not_succeed :
    numericFirstDoc.lookup "account" = none ∧
    notFound idQuery numericFirstDoc = true ∧
    FetchAuthUser numericFirstEnv NewMicrosoftProvider sampleToken =
      .error (.interfaceConversion (.number 1)) ∧
    ¬ ∃ r, FetchAuthUser numericFirstEnv NewMicrosoftProvider sampleToken = .ok r := by
  have h : FetchAuthUser numericFirstEnv NewMicrosoftProvider sampleToken =
      .error (.interfaceConversion (.number 1)) := by
    simp only [FetchAuthUser, numericFirstEnv, stubEnv_fetch, stubEnv_unmarshal]
    rfl
  refine ⟨rfl, rfl, h, ?_⟩
  rintro ⟨r, hr⟩
  rw [h] at hr
  cases hr

/-- C9, amended: when `$.account[0].id` holds the string `s`, every returned
user has `Id = s`; when the path is not found (as it is without an `account`
key, with an empty `account` array, or without an `id` field in its first
element), every returned user has the empty `Id`. In both cases the id step does
not end the call: a user is returned as soon as the email queries are
well-shaped and the name paths are not found or strings. -/
theorem id_extraction (env : Env) (p : Microsoft) (token : Token)
    (data : List UInt8) (rawUser : JSONMap)
    (hfetch : env.FetchRawUserData p.base token = .ok data)
    (hdec : env.Unmarshal data = .ok rawUser) :
    (∀ s, jsonpath.Get idQuery (.object rawUser) = .ok (.string s) →
      (∀ u err, FetchAuthUser env p token = .ok (some u, err) → u.Id = s) ∧
      (emailWellShaped env rawUser = true → absentOrString firstQuery rawUser = true →
        absentOrString lastQuery rawUser = true →
        ∃ u, FetchAuthUser env p token = .ok (some u, none) ∧ u.Id = s)) ∧
    (notFound idQuery rawUser = true →
      (∀ u err, FetchAuthUser env p token = .ok (some u, err) → u.Id = "") ∧
      (emailWellShaped env rawUser = true → absentOrString firstQuery rawUser = true →
        absentOrString lastQuery rawUser = true →
        ∃ u, FetchAuthUser env p token = .ok (some u, none) ∧ u.Id = "")) ∧
    (rawUser.lookup "account" = none → notFound idQuery rawUser = true) ∧
    (rawUser.lookup "account" = some (.array []) → notFound idQuery rawUser = true) ∧
    (∀ o rest, rawUser.lookup "account" = some (.array (.object o :: rest)) →
      o.lookup "id" = none → notFound idQuery rawUser = true) := by
  have key : ∀ s, getOrEmpty idQuery rawUser = .string s →
      (∀ u err, FetchAuthUser env p token = .ok (some u, err) → u.Id = s) ∧
      (emailWellShaped env rawUser = true → absentOrString firstQuery rawUser = true →
        absentOrString lastQuery rawUser = true →
        ∃ u, FetchAuthUser env p token = .ok (some u, none) ∧ u.Id = s) := by
    intro s hs
    constructor
    · intro u err h
      have h' := id_of_returns hfetch hdec h
      rw [hs] at h'
      exact (JSONValue.string.inj h').symm
    · intro hemail hfirst hlast
      obtain ⟨f, hf, _⟩ := assertString_getOrEmpty hfirst
      obtain ⟨l, hl, _⟩ := assertString_getOrEmpty hlast
      obtain ⟨e, he⟩ := emailBlock_wellShaped hemail
      exact ⟨_, FetchAuthUser_of_steps hfetch hdec (assertString_eq_ok.mpr hs) he
        (assertString_eq_ok.mpr rfl) hf hl, rfl⟩
  exact ⟨fun s hs => key s (getOrEmpty_found hs), fun h => key "" (getOrEmpty_notFound h),
    idQuery_notFound_no_account, idQuery_notFound_empty_account,
    fun _ _ h hid => idQuery_notFound_no_id h hid⟩

/-- C9, amended, at a document whose id path holds `42` and at a document
without an `account` key: the ids are `42` and the empty string. -/
theorem id_extraction_witness :
    (∃ u, FetchAuthUser fullEnv NewMicrosoftProvider sampleToken = .ok (some u, none) ∧
      u.Id = "42") ∧
    (∃ u, FetchAuthUser emptyFirstEnv NewMicrosoftProvider sampleToken = .ok (some u, none) ∧
      u.Id = "") :=
  ⟨((id_extraction fullEnv NewMicrosoftProvider sampleToken fullPayload fullDoc rfl
      (stubEnv_unmarshal _ _)).1 "42" rfl).2 rfl rfl rfl,
   ((id_extraction emptyFirstEnv NewMicrosoftProvider sampleToken emptyFirstPayload
      emptyFirstDoc rfl (stubEnv_unmarshal _ _)).2.1 rfl).2 rfl rfl rfl⟩

/-- C10: every returned user carries, as `RawUser`, exactly the mapping that
the decoder produced from the fetched bytes, and the `AccessToken` and
`RefreshToken` of the input token; the error returned with it is nil. -/
theorem rawUser_and_credentials_pass_through (env : Env) (p : Microsoft) (token : Token)
    (u : AuthUser) (err : Option GoError)
    (hret : FetchAuthUser env p token = .ok (some u, err)) :
    (∃ data, env.FetchRawUserData p.base token = .ok data ∧
      env.Unmarshal data = .ok u.RawUser) ∧
    u.AccessToken = token.AccessToken ∧
    u.RefreshToken = token.RefreshToken ∧
    err = none := by
  obtain ⟨data, _, _, _, hf, hd, _, _, _, _, _, _, ha, hr, he⟩ := FetchAuthUser_returns_user hret
  exact ⟨⟨data, hf, hd⟩, ha, hr, he⟩

/-- C10, at the user returned for `fullDoc`: the document and both credentials
are those of the call. -/
theorem rawUser_and_credentials_pass_through_witness :
    (∃ data, fullEnv.FetchRawUserData NewMicrosoftProvider.base sampleToken = .ok data ∧
      fullEnv.Unmarshal data = .ok fullDoc) ∧
    fullUser.AccessToken = sampleToken.AccessToken ∧
    fullUser.RefreshToken = sampleToken.RefreshToken ∧
    (none : Option GoError) = none :=
  rawUser_and_credentials_pass_through fullEnv NewMicrosoftProvider sampleToken fullUser none
    FetchAuthUser_fullEnv

/-- C11 as stated fails: for the scenario document the call returns a user
whose `Id` is `123`, the string at `$.account[0].id`, and not the empty string. -/
theorem scenario_id_is_not_empty :
    jsonpath.Get idQuery (.object principalOnlyDoc) = .ok (.string "123") ∧
    ∃ u, FetchAuthUser principalOnlyEnv NewMicrosoftProvider sampleToken = .ok (some u, none) ∧
      u.Id = "123" ∧ u.Id ≠ "" :=
  ⟨rfl, principalOnlyUser, FetchAuthUser_principalOnlyEnv, rfl, by decide⟩

/-- C11, amended: when the fetched payload decodes to the scenario document
(account with id `123` and principal name `a@b.com`, names `A` and `B`, no
`emails` field) and the mailbox parser returns the bare address `a@b.com` as it
is, `FetchAuthUser` returns a nil error and a user with `Id = "123"`,
`Name = "A B"` and `Email = "a@b.com"`. -/
theorem scenario_result (env : Env) (p : Microsoft) (token : Token)
    (data : List UInt8) (addr : MailAddress)
    (hfetch : env.FetchRawUserData p.base token = .ok data)
    (hdec : env.Unmarshal data = .ok principalOnlyDoc)
    (hparse : env.ParseAddress "a@b.com" = .ok addr)
    (haddr : addr.Address = "a@b.com") :
    FetchAuthUser env p token =
      .ok (some { Id := "123", Name := "A B", Email := "a@b.com", RawUser := principalOnlyDoc,
                  AccessToken := token.AccessToken, RefreshToken := token.RefreshToken },
        none) := by
  have hb : emailBlock env principalOnlyDoc = .ok (.string "a@b.com") := by
    rw [← haddr]
    exact emailBlock_accepted env rfl rfl hparse
  exact FetchAuthUser_of_steps hfetch hdec rfl hb rfl rfl rfl

/-- C11, amended, at the sample call on the scenario payload. -/
theorem scenario_result_witness :
    FetchAuthUser principalOnlyEnv NewMicrosoftProvider sampleToken =
      .ok (some { Id := "123", Name := "A B", Email := "a@b.com", RawUser := principalOnlyDoc,
                  AccessToken := "at-1", RefreshToken := "rt-1" }, none) :=
  scenario_result principalOnlyEnv NewMicrosoftProvider sampleToken principalOnlyPayload
    ⟨"", "a@b.com"⟩ rfl (stubEnv_unmarshal _ _) rfl rfl

/-- C12 as stated fails: for the payload `{}` none of the five queried paths is
found and the call returns a user with empty `Id` and `Email`, but its `Name`
is the single space that joins the two empty name parts, not the empty string. -/
theorem empty_object_name_is_a_space :
    notFound idQuery emptyObjectDoc = true ∧ notFound emailQuery emptyObjectDoc = true ∧
    notFound principalQuery emptyObjectDoc = true ∧ notFound firstQuery emptyObjectDoc = true ∧
    notFound lastQuery emptyObjectDoc = true ∧
    ∃ u, FetchAuthUser emptyObjectEnv NewMicrosoftProvider sampleToken = .ok (some u, none) ∧
      u.Name = " " ∧ u.Name ≠ "" := by
  refine ⟨rfl, rfl, rfl, rfl, rfl,
    { Id := "", Name := " ", Email := "", RawUser := emptyObjectDoc,
      AccessToken := "at-1", RefreshToken := "rt-1" }, ?_, rfl, by decide⟩
  simp only [FetchAuthUser, emptyObjectEnv, stubEnv_fetch, stubEnv_unmarshal]
  rfl

/-- C12, amended: when none of the five queried paths is found, `FetchAuthUser`
returns a nil error and a user whose `Id` and `Email` are the empty string and
whose `Name` is the single space `" "`. -/
theorem missing_fields_degrade (env : Env) (p : Microsoft) (token : Token)
    (data : List UInt8) (rawUser : JSONMap)
    (hfetch : env.FetchRawUserData p.base token = .ok data)
    (hdec : env.Unmarshal data = .ok rawUser)
    (hid : notFound idQuery rawUser = true)
    (hemail : notFound emailQuery rawUser = true)
    (hprincipal : notFound principalQuery rawUser = true)
    (hfirst : notFound firstQuery rawUser = true)
    (hlast : notFound lastQuery rawUser = true) :
    FetchAuthUser env p token =
      .ok (some { Id := "", Name := " ", Email := "", RawUser := rawUser,
                  AccessToken := token.AccessToken, RefreshToken := token.RefreshToken },
        none) := by
  exact FetchAuthUser_of_steps hfetch hdec
    (assertString_eq_ok.mpr (getOrEmpty_notFound hid))
    (emailBlock_absent env hemail hprincipal) (assertString_eq_ok.mpr rfl)
    (assertString_eq_ok.mpr (getOrEmpty_notFound hfirst))
    (assertString_eq_ok.mpr (getOrEmpty_notFound hlast))

/-- C12, amended, at the payload `{}`. -/
theorem missing_fields_degrade_witness :
    FetchAuthUser emptyObjectEnv NewMicrosoftProvider sampleToken =
      .ok (some { Id := "", Name := " ", Email := "", RawUser := emptyObjectDoc,
                  AccessToken := "at-1", RefreshToken := "rt-1" }, none) :=
  missing_fields_degrade emptyObjectEnv NewMicrosoftProvider sampleToken emptyObjectPayload
    emptyObjectDoc rfl (stubEnv_unmarshal _ _) rfl rfl rfl rfl rfl

/-- A query whose value passes the string assertion is not found or a string. -/
theorem absentOrString_of_assert {path : List Selector} {rawUser : JSONMap} {s : String}
    (h : assertString (getOrEmpty path rawUser) = .ok s) :
    absentOrString path rawUser = true := by
  rw [assertString_eq_ok] at h
  unfold getOrEmpty at h
  unfold absentOrString
  split at h
  · rename_i v hv
    subst h
    simp [hv]
  · rename_i e he
    simp [he]

/-- An email block that is left with a string had well-shaped queries. -/
theorem emailWellShaped_of_block {env : Env} {rawUser : JSONMap} {email : JSONValue}
    {e : String} (hb : emailBlock env rawUser = .ok email)
    (he : assertString email = .ok e) : emailWellShaped env rawUser = true := by
  rw [assertString_eq_ok] at he
  subst he
  rcases emailBlock_ok_cases hb with h₁ | ⟨h₁, h₂, _⟩ | ⟨h₁, s, addr, h₂, h₃, _⟩
  · simp [emailWellShaped, h₁]
  · obtain ⟨e₁, h₁⟩ := notFound_iff.mp h₁
    obtain ⟨e₂, h₂⟩ := notFound_iff.mp h₂
    simp [emailWellShaped, h₁, h₂]
  · obtain ⟨e₁, h₁⟩ := notFound_iff.mp h₁
    simp [emailWellShaped, h₁, h₂, h₃]

/-- After a successful fetch and decoding, a call that returns at all returns a
user and a nil error. -/
theorem FetchAuthUser_ok_shape {env : Env} {p : Microsoft} {token : Token}
    {data : List UInt8} {rawUser : JSONMap} {r : Option AuthUser × Option GoError}
    (hfetch : env.FetchRawUserData p.base token = .ok data)
    (hdec : env.Unmarshal data = .ok rawUser)
    (h : FetchAuthUser env p token = .ok r) : ∃ u, r = (some u, none) := by
  simp only [FetchAuthUser, hfetch, hdec] at h
  split at h
  · cases h
  · split at h
    · cases h
    · split at h
      · cases h
      · split at h
        · cases h
        · split at h
          · cases h
          · cases h
            exact ⟨_, rfl⟩

/-- C13: for a payload that decodes successfully, `FetchAuthUser` returns a user
exactly when the id path is not found or a string, the primary email path is a
string or is not found with the principal name not found or a string that the
mailbox parser accepts, and the first-name and last-name paths are each not
found or strings; in every other case the call ends in a panic. -/
theorem fetchAuthUser_returns_iff (env : Env) (p : Microsoft) (token : Token)
    (data : List UInt8) (rawUser : JSONMap)
    (hfetch : env.FetchRawUserData p.base token = .ok data)
    (hdec : env.Unmarshal data = .ok rawUser) :
    ((∃ u err, FetchAuthUser env p token = .ok (some u, err)) ↔
      (absentOrString idQuery rawUser = true ∧ emailWellShaped env rawUser = true ∧
        absentOrString firstQuery rawUser = true ∧ absentOrString lastQuery rawUser = true)) ∧
    ((∃ pn, FetchAuthUser env p token = .error pn) ↔
      ¬ (absentOrString idQuery rawUser = true ∧ emailWellShaped env rawUser = true ∧
        absentOrString firstQuery rawUser = true ∧ absentOrString lastQuery rawUser = true)) := by
  have hiff : (∃ u err, FetchAuthUser env p token = .ok (some u, err)) ↔
      (absentOrString idQuery rawUser = true ∧ emailWellShaped env rawUser = true ∧
        absentOrString firstQuery rawUser = true ∧ absentOrString lastQuery rawUser = true) := by
    constructor
    · rintro ⟨u, err, h⟩
      have hraw := rawUser_of_returns hfetch hdec h
      obtain ⟨_, email, f, l, _, _, hi, hb, he, hf, hl, _⟩ := FetchAuthUser_returns_user h
      rw [hraw] at hi hb hf hl
      exact ⟨absentOrString_of_assert hi, emailWellShaped_of_block hb he,
        absentOrString_of_assert hf, absentOrString_of_assert hl⟩
    · rintro ⟨hid, hemail, hfirst, hlast⟩
      obtain ⟨u, hu⟩ := FetchAuthUser_wellShaped hfetch hdec hid hemail hfirst hlast
      exact ⟨u, none, hu⟩
  refine ⟨hiff, ?_⟩
  rw [← hiff]
  constructor
  · rintro ⟨pn, hpn⟩ ⟨u, err, h⟩
    rw [hpn] at h
    cases h
  · intro hno
    cases hres : FetchAuthUser env p token with
    | error pn => exact ⟨pn, rfl⟩
    | ok r =>
      obtain ⟨u, hr⟩ := FetchAuthUser_ok_shape hfetch hdec hres
      exact absurd ⟨u, none, by rw [hres, hr]⟩ hno

/-- C13, at two sample calls: the document with all paths as strings meets the
condition and a user is returned; the document with a numeric id does not and
the call ends in a panic. -/
theorem fetchAuthUser_returns_iff_witness :
    (∃ u err, FetchAuthUser fullEnv NewMicrosoftProvider sampleToken = .ok (some u, err)) ∧
    (∃ pn, FetchAuthUser numericIdEnv NewMicrosoftProvider sampleToken = .error pn) :=
  ⟨(fetchAuthUser_returns_iff fullEnv NewMicrosoftProvider sampleToken fullPayload fullDoc
      rfl (stubEnv_unmarshal _ _)).1.mpr ⟨rfl, rfl, rfl, rfl⟩,
   (fetchAuthUser_returns_iff numericIdEnv NewMicrosoftProvider sampleToken numericIdPayload
      numericIdDoc rfl (stubEnv_unmarshal _ _)).2.mpr (fun h => Bool.noConfusion h.1)⟩

/-- C14: when `$.emails[0].address` is found, the result of the call is the same
for every mailbox parser and carries no condition on the principal name — the
fallback is not entered; in particular, when the value found is the empty
string, every returned user has `Email = ""`, and a user is returned as soon as
the id and name paths are not found or strings. -/
theorem email_fallback_on_absence_only (env : Env) (p : Microsoft) (token : Token)
    (data : List UInt8) (rawUser : JSONMap) (v : JSONValue)
    (hfetch : env.FetchRawUserData p.base token = .ok data)
    (hdec : env.Unmarshal data = .ok rawUser)
    (hprimary : jsonpath.Get emailQuery (.object rawUser) = .ok v) :
    (∀ parseAddress : String → Except GoError MailAddress,
      FetchAuthUser ⟨env.FetchRawUserData, env.Unmarshal, parseAddress⟩ p token =
        FetchAuthUser env p token) ∧
    (v = .string "" →
      (∀ u err, FetchAuthUser env p token = .ok (some u, err) → u.Email = "") ∧
      (absentOrString idQuery rawUser = true → absentOrString firstQuery rawUser = true →
        absentOrString lastQuery rawUser = true →
        ∃ u, FetchAuthUser env p token = .ok (some u, none) ∧ u.Email = "")) := by
  have hb := emailBlock_primary env hprimary
  constructor
  · intro parseAddress
    have hb' := emailBlock_primary ⟨env.FetchRawUserData, env.Unmarshal, parseAddress⟩ hprimary
    simp only [FetchAuthUser, hfetch, hdec, hb, hb']
  · intro hv
    subst hv
    constructor
    · intro u err h
      have h' := email_of_returns hfetch hdec h
      rw [hb] at h'
      exact (JSONValue.string.inj (Except.ok.inj h')).symm
    · intro hid hfirst hlast
      obtain ⟨i, hi, _⟩ := assertString_getOrEmpty hid
      obtain ⟨f, hf, _⟩ := assertString_getOrEmpty hfirst
      obtain ⟨l, hl, _⟩ := assertString_getOrEmpty hlast
      exact ⟨_, FetchAuthUser_of_steps hfetch hdec hi hb (assertString_eq_ok.mpr rfl) hf hl,
        rfl⟩

/-- C14, on a document whose `emails[0].address` is the empty string and whose
principal name is the valid address `a@b.com`: the email stays empty. -/
theorem email_fallback_on_absence_only_witness :
    jsonpath.Get principalQuery (.object emptyPrimaryDoc) = .ok (.string "a@b.com") ∧
    emptyPrimaryEnv.ParseAddress "a@b.com" = .ok ⟨"", "a@b.com"⟩ ∧
    ∃ u, FetchAuthUser emptyPrimaryEnv NewMicrosoftProvider sampleToken = .ok (some u, none) ∧
      u.Email = "" :=
  ⟨rfl, rfl, ((email_fallback_on_absence_only emptyPrimaryEnv NewMicrosoftProvider sampleToken
    emptyPrimaryPayload emptyPrimaryDoc (.string "") rfl (stubEnv_unmarshal _ _) rfl).2 rfl).2
    rfl rfl rfl⟩

/-- C15: the provider built by `NewMicrosoftProvider` has the scopes
`["User.Read"]`, the user-info URL `https://graph.microsoft.com/beta/me/profile`
and, as authorization and token URLs, the `AuthURL` and `TokenURL` of the Azure
AD endpoint for the empty tenant; the whole configuration is this fixed value,
so any two calls give equal configurations. -/
theorem newMicrosoftProvider_defaults :
    NewMicrosoftProvider.base.scopes = ["User.Read"] ∧
    NewMicrosoftProvider.base.scopes.length = 1 ∧
    NewMicrosoftProvider.base.userApiUrl = "https://graph.microsoft.com/beta/me/profile" ∧
    NewMicrosoftProvider.base.authUrl = (AzureADEndpoint "").AuthURL ∧
    NewMicrosoftProvider.base.tokenUrl = (AzureADEndpoint "").TokenURL ∧
    NewMicrosoftProvider =
      { base :=
          { scopes := ["User.Read"]
            authUrl := (AzureADEndpoint "").AuthURL
            tokenUrl := (AzureADEndpoint "").TokenURL
            userApiUrl := "https://graph.microsoft.com/beta/me/profile" } } :=
  ⟨rfl, rfl, rfl, rfl, rfl, rfl⟩

end auth
